import Mathlib

/-!
Shallow embedding of the Socket.IO chat layer of the chert-api repository
(the code in `src/utils/upload.ts`: authentication middleware, connection
registry, room membership, and the event handlers `join_chat`, `leave_chat`,
`send_message`, `typing`, `stop_typing`, `read_message`, `presence_update`,
and `disconnect`).

Every handler is modelled as a pure function from a server state and the
handler's inputs to a new server state together with the list of emissions.
Each emission records the event payload and the concrete list of recipient
sockets, resolved against room membership at the moment of the `emit` call,
mirroring `io.to(room).emit` (all room members), `socket.to(room).emit`
(room members minus the sender) and `socket.emit` (the one socket).
-/

namespace Chert

abbrev UserId := String
abbrev SocketId := String
abbrev ChatId := String
abbrev MessageId := Nat

/-- The JWT payload attached to a socket by the auth middleware
(`socket.data.user`); only `id` and `username` are read by the handlers. -/
structure JWTPayload where
  id : UserId
  username : String
deriving Repr, DecidableEq

/-- One entry of the in-memory connection registry (`interface SocketUser`). -/
structure SocketUser where
  userId : UserId
  socketId : SocketId
  username : String
deriving Repr, DecidableEq

/-- `enum MessageType` from the shared types module. -/
inductive MessageType where
  | text
  | image
  | file
deriving Repr, DecidableEq

/-- `enum MessageStatus` from the shared types module. -/
inductive MessageStatus where
  | sent
  | delivered
  | read
deriving Repr, DecidableEq

/-- A chat document (`Chat` model): participants plus the last-message
pointer, the only fields the socket layer reads or writes. -/
structure Chat where
  id : ChatId
  participants : List UserId
  lastMessage : Option MessageId
deriving Repr, DecidableEq

/-- A message document (`Message` model), restricted to the fields the
socket layer creates and updates. -/
structure Message where
  id : MessageId
  chatId : ChatId
  senderId : UserId
  content : String
  type : MessageType
  status : MessageStatus
  fileUrl : Option String
  fileName : Option String
  fileSize : Option Nat
  replyTo : Option MessageId
  readBy : List UserId
deriving Repr, DecidableEq

/-- The per-user document fields touched by the socket layer
(`isOnline`, `lastSeen`). -/
structure UserRec where
  isOnline : Bool
  lastSeen : Option Nat
deriving Repr, DecidableEq

/-- The connection-scoped data captured by the `io.on('connection')`
closure: `userId`, `username`, the socket id, and the snapshot of chat ids
fetched by `Chat.find({ participants: userId })` at connection time. -/
structure ConnCtx where
  userId : UserId
  socketId : SocketId
  username : String
  chatSnapshot : List ChatId
deriving Repr, DecidableEq

/-- Association-list lookup keyed by decidable equality (first match). -/
def alookup {α β : Type} [DecidableEq α] (k : α) : List (α × β) → Option β
  | [] => none
  | (k', v) :: rest => if k = k' then some v else alookup k rest

/-- Association-list update: replace the first binding of `k`, or append a
new binding at the end (mirrors `Map.set`). -/
def aset {α β : Type} [DecidableEq α] (k : α) (v : β) : List (α × β) → List (α × β)
  | [] => [(k, v)]
  | (k', v') :: rest => if k = k' then (k, v) :: rest else (k', v') :: aset k v rest

/-- Association-list deletion of every binding of `k` (mirrors `Map.delete`). -/
def adel {α β : Type} [DecidableEq α] (k : α) (l : List (α × β)) : List (α × β) :=
  l.filter (fun p => p.1 ≠ k)

/-- JavaScript string truthiness for `string | undefined` values:
`undefined` and the empty string are falsy. -/
def jsTruthy : Option String → Bool
  | none => false
  | some s => s ≠ ""

/-- JavaScript `a || b` on `string | undefined` values. -/
def jsOr (a b : Option String) : Option String :=
  if jsTruthy a then a else b

/-- JavaScript `s || ''`. -/
def jsOrEmpty : Option String → String
  | none => ""
  | some s => s

/-- `String.replace(pat, '')` restricted to removing the first occurrence of
`pat`, on character lists. -/
def replaceOnceAux (pat : List Char) : List Char → List Char
  | [] => []
  | c :: rest =>
    if pat.isPrefixOf (c :: rest) then (c :: rest).drop pat.length
    else c :: replaceOnceAux pat rest

/-- JavaScript `s.replace(pat, '')`: remove the first occurrence of `pat`. -/
def replaceOnce (s pat : String) : String :=
  String.mk (replaceOnceAux pat.data s.data)

/-- The tagged outbound events of the socket layer, with the payload fields
each carries in the source. `connError` is the connection-level rejection
produced when the auth middleware calls `next(new Error(...))`. -/
inductive EventMsg where
  | user_online (userId username : String) (chatId : ChatId)
  | user_offline (userId username : String) (chatId : ChatId)
  | joined_chat (chatId : ChatId)
  | left_chat (chatId : ChatId)
  | new_message (m : Message)
  | message_sent (messageId : MessageId) (chatId : ChatId)
  | user_typing (chatId : ChatId) (userId username : String)
  | user_stop_typing (chatId : ChatId) (userId username : String)
  | messages_read (chatId : ChatId) (userId username : String)
  | user_presence (userId username status : String) (chatId : ChatId)
  | errorEv (message : String)
  | connError (message : String)
deriving Repr, DecidableEq

/-- One emission: the event payload plus the concrete recipient sockets,
resolved at the moment of the `emit` call. -/
structure Delivery where
  msg : EventMsg
  recipients : List SocketId
deriving Repr, DecidableEq

/-- The whole server state: the in-memory registry (`connectedUsers`), room
membership, the live connection closures, and the persistence collaborator's
collections (users, chats, messages), plus the token table backing
`verifyToken` and a message-id counter. -/
structure ServerState where
  connectedUsers : List (UserId × List SocketUser)
  rooms : List (ChatId × List SocketId)
  ctxs : List ConnCtx
  users : List (UserId × UserRec)
  chats : List Chat
  messages : List Message
  tokens : List (String × JWTPayload)
  nextMessageId : MessageId
  now : Nat
deriving Repr, DecidableEq

/-- Members of a chat room within a room map. -/
def roomMembers (rooms : List (ChatId × List SocketId)) (c : ChatId) : List SocketId :=
  (alookup c rooms).getD []

/-- Current members of a chat room. -/
def membersOf (st : ServerState) (c : ChatId) : List SocketId :=
  roomMembers st.rooms c

/-- `socket.join(room)`: idempotent insertion. -/
def joinRoom (c : ChatId) (s : SocketId) (rooms : List (ChatId × List SocketId)) :
    List (ChatId × List SocketId) :=
  aset c (if s ∈ roomMembers rooms c then roomMembers rooms c
          else roomMembers rooms c ++ [s]) rooms

/-- `socket.leave(room)`. -/
def leaveRoom (c : ChatId) (s : SocketId) (rooms : List (ChatId × List SocketId)) :
    List (ChatId × List SocketId) :=
  aset c ((roomMembers rooms c).filter (fun x => x ≠ s)) rooms

/-- Removal of a disconnected socket from every room (Socket.IO does this
before the `disconnect` handler runs). -/
def leaveAllRooms (s : SocketId) (rooms : List (ChatId × List SocketId)) :
    List (ChatId × List SocketId) :=
  rooms.map (fun p => (p.1, p.2.filter (fun x => x ≠ s)))

/-- `io.to(room).emit(...)`: delivered to every current room member. -/
def emitRoom (st : ServerState) (c : ChatId) (m : EventMsg) : Delivery :=
  ⟨m, membersOf st c⟩

/-- `socket.to(room).emit(...)`: delivered to every current room member
except the emitting socket. -/
def emitRoomExcept (st : ServerState) (c : ChatId) (s : SocketId) (m : EventMsg) : Delivery :=
  ⟨m, (membersOf st c).filter (fun x => x ≠ s)⟩

/-- `socket.emit(...)`: point-to-point to the one socket. -/
def emitSocket (s : SocketId) (m : EventMsg) : Delivery :=
  ⟨m, [s]⟩

/-- `Chat.findOne({ _id: chatId, participants: userId })`. -/
def findChatFor (st : ServerState) (chatId : ChatId) (u : UserId) : Option Chat :=
  st.chats.find? (fun c => c.id = chatId ∧ u ∈ c.participants)

/-- `Chat.find({ participants: userId })`. -/
def chatsOf (st : ServerState) (u : UserId) : List Chat :=
  st.chats.filter (fun c => u ∈ c.participants)

/-- `User.findByIdAndUpdate(userId, upd)`: updates the document when it
exists, does nothing otherwise. -/
def updateUser (u : UserId) (f : UserRec → UserRec) (users : List (UserId × UserRec)) :
    List (UserId × UserRec) :=
  users.map (fun p => if p.1 = u then (p.1, f p.2) else p)

/-- The registry insertion of `io.on('connection')` (lines 161-169):
create the user's array when absent, then push the new `SocketUser`. -/
def registerConn (u : UserId) (s : SocketId) (w : String)
    (reg : List (UserId × List SocketUser)) : List (UserId × List SocketUser) :=
  aset u (((alookup u reg).getD []) ++ [⟨u, s, w⟩]) reg

/-- The registry removal of the `disconnect` handler (lines 406-429): filter
out the entry whose `socketId` matches; delete the user's key when nothing
remains, otherwise store the filtered list. Returns the new registry paired
with `true` exactly when this removal emptied the user's entry (the branch
that fires the offline transition). -/
def unregisterConn (u : UserId) (s : SocketId)
    (reg : List (UserId × List SocketUser)) : List (UserId × List SocketUser) × Bool :=
  match alookup u reg with
  | none => (reg, false)
  | some userSockets =>
    let filtered := userSockets.filter (fun e => e.socketId ≠ s)
    if filtered = [] then (adel u reg, true) else (aset u filtered reg, false)

/-- The body of `io.on('connection', ...)`, after the auth middleware has
attached `socket.data.user`: registry insert, `isOnline := true`, bulk-join
of every chat the user participates in, then one `user_online` emission per
such chat. -/
def onConnection (st : ServerState) (p : JWTPayload) (s : SocketId) :
    ServerState × List Delivery :=
  let reg := registerConn p.id s p.username st.connectedUsers
  let users := updateUser p.id (fun r => { r with isOnline := true }) st.users
  let chats := chatsOf st p.id
  let rooms := chats.foldl (fun acc c => joinRoom c.id s acc) st.rooms
  let ctx : ConnCtx := ⟨p.id, s, p.username, chats.map (fun c => c.id)⟩
  let st' : ServerState :=
    { st with connectedUsers := reg, users := users, rooms := rooms,
              ctxs := st.ctxs ++ [ctx] }
  (st', chats.map (fun c => emitRoom st' c.id (.user_online p.id p.username c.id)))

/-- The auth middleware `io.use(...)` (lines 138-152): take the handshake
auth token, falling back to the `Authorization` header with `'Bearer '`
removed; reject when the result is falsy; otherwise verify it against the
token table (the pure model of `verifyToken`). -/
def authenticate (tokens : List (String × JWTPayload)) (auth authHeader : Option String) :
    Except String JWTPayload :=
  match jsOr auth (authHeader.map (fun h => replaceOnce h "Bearer ")) with
  | none => .error "Authentication error: No token provided"
  | some t =>
    if t = "" then .error "Authentication error: No token provided"
    else
      match alookup t tokens with
      | some p => .ok p
      | none => .error "Authentication error: Invalid token"

/-- A full incoming connection: the middleware runs first; on failure the
socket is rejected with a connection-level error and no handler runs; on
success the connection handler runs. -/
def handleConnection (st : ServerState) (auth authHeader : Option String) (s : SocketId) :
    ServerState × List Delivery :=
  match authenticate st.tokens auth authHeader with
  | .error e => (st, [⟨.connError e, [s]⟩])
  | .ok p => onConnection st p s

/-- `socket.on('join_chat')` (lines 190-207): join the room and confirm when
the user is a participant of the chat; otherwise fall through silently. -/
def joinChat (st : ServerState) (ctx : ConnCtx) (chatId : ChatId) :
    ServerState × List Delivery :=
  match findChatFor st chatId ctx.userId with
  | some _ =>
    ({ st with rooms := joinRoom chatId ctx.socketId st.rooms },
     [emitSocket ctx.socketId (.joined_chat chatId)])
  | none => (st, [])

/-- `socket.on('leave_chat')` (lines 210-214). -/
def leaveChat (st : ServerState) (ctx : ConnCtx) (chatId : ChatId) :
    ServerState × List Delivery :=
  ({ st with rooms := leaveRoom chatId ctx.socketId st.rooms },
   [emitSocket ctx.socketId (.left_chat chatId)])

/-- The payload of a `send_message` event. -/
structure SendMessageData where
  chatId : ChatId
  content : Option String
  type : Option MessageType
  fileUrl : Option String
  fileName : Option String
  fileSize : Option Nat
  replyTo : Option MessageId
deriving Repr, DecidableEq

/-- `socket.on('send_message')` (lines 217-300): participant check,
payload validation, message creation, last-message update, the
`fetchSockets` force-join of every connected participant into the room,
then `new_message` to the room and `message_sent` to the sender. -/
def sendMessage (st : ServerState) (ctx : ConnCtx) (d : SendMessageData) :
    ServerState × List Delivery :=
  match findChatFor st d.chatId ctx.userId with
  | none => (st, [emitSocket ctx.socketId (.errorEv "Chat not found or access denied")])
  | some chat =>
    if d.type = some .text ∧ ¬ jsTruthy d.content then
      (st, [emitSocket ctx.socketId (.errorEv "Content is required for text messages")])
    else if (d.type = some .image ∨ d.type = some .file) ∧ ¬ jsTruthy d.fileUrl then
      (st, [emitSocket ctx.socketId (.errorEv "File URL is required for file/image messages")])
    else
      let message : Message :=
        { id := st.nextMessageId
          chatId := d.chatId
          senderId := ctx.userId
          content := jsOrEmpty d.content
          type := d.type.getD .text
          status := .sent
          fileUrl := d.fileUrl
          fileName := d.fileName
          fileSize := d.fileSize
          replyTo := d.replyTo
          readBy := [] }
      let chats :=
        st.chats.map (fun c => if c.id = chat.id then { c with lastMessage := some message.id } else c)
      let rooms :=
        st.ctxs.foldl
          (fun acc c' => if c'.userId ∈ chat.participants then joinRoom d.chatId c'.socketId acc else acc)
          st.rooms
      let st' : ServerState :=
        { st with messages := st.messages ++ [message], nextMessageId := st.nextMessageId + 1,
                  chats := chats, rooms := rooms }
      (st',
       [emitRoom st' d.chatId (.new_message message),
        emitSocket ctx.socketId (.message_sent message.id d.chatId)])

/-- `socket.on('typing')` (lines 303-319): participant check, then
`user_typing` to the room excluding the sender; silent otherwise. -/
def typing (st : ServerState) (ctx : ConnCtx) (chatId : ChatId) :
    ServerState × List Delivery :=
  match findChatFor st chatId ctx.userId with
  | some _ =>
    (st, [emitRoomExcept st chatId ctx.socketId (.user_typing chatId ctx.userId ctx.username)])
  | none => (st, [])

/-- `socket.on('stop_typing')` (lines 322-329): unconditionally emit
`user_stop_typing` to the room excluding the sender. -/
def stopTyping (st : ServerState) (ctx : ConnCtx) (chatId : ChatId) :
    ServerState × List Delivery :=
  (st, [emitRoomExcept st chatId ctx.socketId (.user_stop_typing chatId ctx.userId ctx.username)])

/-- The filter of the two `Message.updateMany` calls of `read_message`
(lines 347-374): the targeted chat, authored by someone else, not already
read by this user, and — only when a non-empty `messageIds` array was
supplied — listed in it. -/
def idFilterOk (messageIds : Option (List MessageId)) (m : Message) : Bool :=
  match messageIds with
  | some ids => if ids.length > 0 then decide (m.id ∈ ids) else true
  | none => true

/-- See `idFilterOk` for the `messageIds && messageIds.length > 0` branch
selection; the remaining conjuncts are the shared query filter. -/
def readTargets (u : UserId) (chatId : ChatId) (messageIds : Option (List MessageId))
    (m : Message) : Bool :=
  idFilterOk messageIds m
  && decide (m.chatId = chatId) && decide (m.senderId ≠ u) && decide (u ∉ m.readBy)

/-- The update applied by `Message.updateMany`:
`$addToSet readBy` and `status := READ`. -/
def markRead (u : UserId) (m : Message) : Message :=
  { m with readBy := m.readBy ++ [u], status := .read }

/-- `socket.on('read_message')` (lines 332-386): participant check, mark the
targeted messages as read, then `messages_read` to the room excluding the
sender; point-to-point error for a non-participant. -/
def readMessage (st : ServerState) (ctx : ConnCtx) (chatId : ChatId)
    (messageIds : Option (List MessageId)) : ServerState × List Delivery :=
  match findChatFor st chatId ctx.userId with
  | none => (st, [emitSocket ctx.socketId (.errorEv "Chat not found or access denied")])
  | some _ =>
    let messages :=
      st.messages.map (fun m =>
        if readTargets ctx.userId chatId messageIds m then markRead ctx.userId m else m)
    ({ st with messages := messages },
     [emitRoomExcept st chatId ctx.socketId (.messages_read chatId ctx.userId ctx.username)])

/-- `socket.on('presence_update')` (lines 389-400): no check, no
persistence; emit `user_presence` with the supplied status string verbatim
to the room of every chat in the connection-time snapshot. -/
def presenceUpdate (st : ServerState) (ctx : ConnCtx) (status : String) :
    ServerState × List Delivery :=
  (st, ctx.chatSnapshot.map (fun c =>
    emitRoom st c (.user_presence ctx.userId ctx.username status c)))

/-- `socket.on('disconnect')` (lines 403-430), together with Socket.IO's own
cleanup (the socket has left all rooms by the time the handler runs, and its
closure is gone afterwards): registry removal; when the last entry for the
user was removed, persist offline/lastSeen and emit `user_offline` to every
chat of the connection-time snapshot. -/
def onDisconnect (st : ServerState) (ctx : ConnCtx) : ServerState × List Delivery :=
  let rooms := leaveAllRooms ctx.socketId st.rooms
  let ctxs := st.ctxs.filter (fun c => c.socketId ≠ ctx.socketId)
  let st1 : ServerState := { st with rooms := rooms, ctxs := ctxs }
  let r := unregisterConn ctx.userId ctx.socketId st1.connectedUsers
  if r.2 then
    let st2 : ServerState :=
      { st1 with connectedUsers := r.1,
                 users := updateUser ctx.userId
                   (fun u => { u with isOnline := false, lastSeen := some st.now }) st1.users }
    (st2, ctx.chatSnapshot.map (fun c => emitRoom st2 c (.user_offline ctx.userId ctx.username c)))
  else
    ({ st1 with connectedUsers := r.1 }, [])

/-- Post-authentication trace events: a connection (with its verified JWT
payload), a disconnect, or one of the client events, each tagged with the
socket that raised it. -/
inductive InEvent where
  | conn (p : JWTPayload) (s : SocketId)
  | disc (s : SocketId)
  | joinChatEv (s : SocketId) (chatId : ChatId)
  | leaveChatEv (s : SocketId) (chatId : ChatId)
  | sendMessageEv (s : SocketId) (d : SendMessageData)
  | typingEv (s : SocketId) (chatId : ChatId)
  | stopTypingEv (s : SocketId) (chatId : ChatId)
  | readMessageEv (s : SocketId) (chatId : ChatId) (messageIds : Option (List MessageId))
  | presenceUpdateEv (s : SocketId) (status : String)
deriving Repr, DecidableEq

/-- Find the live connection closure for a socket id. -/
def ctxFor (st : ServerState) (s : SocketId) : Option ConnCtx :=
  st.ctxs.find? (fun c => c.socketId = s)

/-- One trace step: dispatch an event to its handler; events from sockets
with no live closure are dropped. -/
def stepEv (st : ServerState) : InEvent → ServerState × List Delivery
  | .conn p s => onConnection st p s
  | .disc s =>
    match ctxFor st s with
    | some ctx => onDisconnect st ctx
    | none => (st, [])
  | .joinChatEv s c =>
    match ctxFor st s with
    | some ctx => joinChat st ctx c
    | none => (st, [])
  | .leaveChatEv s c =>
    match ctxFor st s with
    | some ctx => leaveChat st ctx c
    | none => (st, [])
  | .sendMessageEv s d =>
    match ctxFor st s with
    | some ctx => sendMessage st ctx d
    | none => (st, [])
  | .typingEv s c =>
    match ctxFor st s with
    | some ctx => typing st ctx c
    | none => (st, [])
  | .stopTypingEv s c =>
    match ctxFor st s with
    | some ctx => stopTyping st ctx c
    | none => (st, [])
  | .readMessageEv s c ids =>
    match ctxFor st s with
    | some ctx => readMessage st ctx c ids
    | none => (st, [])
  | .presenceUpdateEv s status =>
    match ctxFor st s with
    | some ctx => presenceUpdate st ctx status
    | none => (st, [])

/-- Run a trace of events, concatenating the deliveries. -/
def runEvents (st : ServerState) : List InEvent → ServerState × List Delivery
  | [] => (st, [])
  | e :: rest =>
    let r := stepEv st e
    let r2 := runEvents r.1 rest
    (r2.1, r.2 ++ r2.2)

/-- Number of `user_online` emissions for user `u` in a delivery list
(one per room emission, as the source emits once per chat room). -/
def countOnline (u : UserId) (ds : List Delivery) : Nat :=
  (ds.filter (fun d =>
    match d.msg with
    | .user_online uid _ _ => uid = u
    | _ => false)).length

/-- Number of `user_offline` emissions for user `u` in a delivery list. -/
def countOffline (u : UserId) (ds : List Delivery) : Nat :=
  (ds.filter (fun d =>
    match d.msg with
    | .user_offline uid _ _ => uid = u
    | _ => false)).length

/-- Well-formedness of the room map: no socket is listed twice in a room. -/
def RoomsWF (rooms : List (ChatId × List SocketId)) : Prop :=
  ∀ p ∈ rooms, p.2.Nodup

instance : DecidablePred RoomsWF := fun rooms =>
  inferInstanceAs (Decidable (∀ p ∈ rooms, p.2.Nodup))


/-- The `fetchSockets` force-join loop of `send_message`, as a fold. -/
def forceJoin (chatId : ChatId) (parts : List UserId) (ctxs : List ConnCtx)
    (rooms : List (ChatId × List SocketId)) : List (ChatId × List SocketId) :=
  ctxs.foldl
    (fun acc c' => if c'.userId ∈ parts then joinRoom chatId c'.socketId acc else acc)
    rooms


/-- The registry entry created for one connection. -/
def connEntry (p : JWTPayload) (s : SocketId) : SocketUser :=
  ⟨p.id, s, p.username⟩

/-- The connection closure created for one connection against a state. -/
def connCtxOf (st : ServerState) (p : JWTPayload) (s : SocketId) : ConnCtx :=
  ⟨p.id, s, p.username, (chatsOf st p.id).map (fun c => c.id)⟩


/-- A freshly started server: empty registry, no rooms, no live
connections, over given persistent collections and token table. -/
def initialState (tokens : List (String × JWTPayload)) (users : List (UserId × UserRec))
    (db : List Chat) : ServerState :=
  { connectedUsers := [], rooms := [], ctxs := [], users := users, chats := db,
    messages := [], tokens := tokens, nextMessageId := 0, now := 0 }

/-! ### Concrete scenario states -/

/-- A chat `c1` between users `u` and `v`. -/
def chatC1 : Chat := ⟨"c1", ["u", "v"], none⟩

/-- Persistent chat collection holding only `c1`. -/
def dbC : List Chat := [chatC1]

/-- User collection for the scenarios. -/
def usersC : List (UserId × UserRec) := [("u", ⟨false, none⟩), ("v", ⟨false, none⟩)]

/-- Token table mapping one valid token to user `u`. -/
def tokensC : List (String × JWTPayload) := [("tokU", ⟨"u", "alice"⟩)]

/-- A freshly started server over the scenario collections. -/
def stStart : ServerState := initialState tokensC usersC dbC

/-- Connection closure of user `u` on socket `s1` with snapshot `[c1]`. -/
def ctxU : ConnCtx := ⟨"u", "s1", "alice", ["c1"]⟩

/-- Connection closure of user `v` on socket `s2` with snapshot `[c1]`. -/
def ctxV : ConnCtx := ⟨"v", "s2", "bob", ["c1"]⟩

/-- Connection closure of an outsider user `x` (participant of no chat). -/
def ctxX : ConnCtx := ⟨"x", "sx", "xena", []⟩

/-- State with `u` and `v` live and both sockets in room `c1`. -/
def stB : ServerState := { stStart with rooms := [("c1", ["s1", "s2"])], ctxs := [ctxU, ctxV] }

/-- State with `u` and `v` live but only `u`'s socket in room `c1`. -/
def stC4 : ServerState := { stStart with rooms := [("c1", ["s1"])], ctxs := [ctxU, ctxV] }

/-- State with the outsider `x` live and a `v` socket in room `c1`. -/
def stC5 : ServerState := { stStart with rooms := [("c1", ["sv"])], ctxs := [ctxX] }

/-- State in which `u`'s socket has left room `c1` (its snapshot) and sits
in room `c2` instead. -/
def stC6 : ServerState := { stStart with rooms := [("c2", ["s1"]), ("c1", [])], ctxs := [ctxU] }

/-- A message authored by `v` in chat `c1`, not yet read by `u`. -/
def msgV : Message := ⟨0, "c1", "v", "hi", .text, .sent, none, none, none, none, []⟩

/-- State holding `msgV` with `u` live. -/
def stC8 : ServerState := { stStart with messages := [msgV], ctxs := [ctxU] }

/-- A valid text `send_message` payload for chat `c1`. -/
def dmsg : SendMessageData := ⟨"c1", some "hi", some .text, none, none, none, none⟩

/-- The message document built by `Message.create` in the `send_message`
handler (with the source's `content || ''` and `type || TEXT` defaults,
`status: SENT`, and an empty `readBy`). -/
def mkMessage (st : ServerState) (ctx : ConnCtx) (d : SendMessageData) : Message :=
  { id := st.nextMessageId
    chatId := d.chatId
    senderId := ctx.userId
    content := jsOrEmpty d.content
    type := d.type.getD .text
    status := .sent
    fileUrl := d.fileUrl
    fileName := d.fileName
    fileSize := d.fileSize
    replyTo := d.replyTo
    readBy := [] }

/-- The registry states reachable from the empty map via the connection
handler's insert (`registerConn`) and the disconnect handler's removal
(`unregisterConn`). -/
inductive RegReach : List (UserId × List SocketUser) → Prop where
  | init : RegReach []
  | register (u : UserId) (s : SocketId) (w : String) {r : List (UserId × List SocketUser)}
      (h : RegReach r) : RegReach (registerConn u s w r)
  | unregister (u : UserId) (s : SocketId) {r : List (UserId × List SocketUser)}
      (h : RegReach r) : RegReach (unregisterConn u s r).1


/-! ### Association-list lemmas -/

theorem alookup_aset_self {α β : Type} [DecidableEq α] (k : α) (v : β) (l : List (α × β)) :
    alookup k (aset k v l) = some v := by
  induction l with
  | nil => simp [aset, alookup]
  | cons p rest ih =>
    by_cases h : k = p.1
    · simp [aset, alookup, h]
    · simp [aset, alookup, h, ih]

theorem alookup_aset_ne {α β : Type} [DecidableEq α] {k k' : α} (v : β) (l : List (α × β))
    (h : k' ≠ k) : alookup k' (aset k v l) = alookup k' l := by
  induction l with
  | nil => simp [aset, alookup, h]
  | cons p rest ih =>
    by_cases hk : k = p.1
    · subst hk
      simp [aset, alookup, h]
    · by_cases hk' : k' = p.1
      · simp [aset, alookup, hk, hk']
      · simp [aset, alookup, hk, hk', ih]

theorem adel_cons_eq {α β : Type} [DecidableEq α] {k : α} {p : α × β} (l : List (α × β))
    (h : p.1 = k) : adel k (p :: l) = adel k l := by
  simp [adel, h]

theorem adel_cons_ne {α β : Type} [DecidableEq α] {k : α} {p : α × β} (l : List (α × β))
    (h : ¬ p.1 = k) : adel k (p :: l) = p :: adel k l := by
  simp [adel, h]

theorem alookup_adel_self {α β : Type} [DecidableEq α] (k : α) (l : List (α × β)) :
    alookup k (adel k l) = none := by
  induction l with
  | nil => simp [adel, alookup]
  | cons p rest ih =>
    by_cases h : p.1 = k
    · rw [adel_cons_eq rest h]
      exact ih
    · rw [adel_cons_ne rest h]
      have h' : k ≠ p.1 := fun hk => h hk.symm
      simp [alookup, h', ih]

theorem alookup_adel_ne {α β : Type} [DecidableEq α] {k k' : α} (l : List (α × β))
    (h : k' ≠ k) : alookup k' (adel k l) = alookup k' l := by
  induction l with
  | nil => simp [adel, alookup]
  | cons p rest ih =>
    by_cases hp : p.1 = k
    · rw [adel_cons_eq rest hp, ih]
      have h' : k' ≠ p.1 := by
        rw [hp]; exact h
      simp [alookup, h']
    · rw [adel_cons_ne rest hp]
      by_cases hk' : k' = p.1
      · simp [alookup, hk']
      · simp [alookup, hk', ih]

theorem mem_aset {α β : Type} [DecidableEq α] {p : α × β} {k : α} {v : β} {l : List (α × β)}
    (hp : p ∈ aset k v l) : p = (k, v) ∨ p ∈ l := by
  induction l with
  | nil => simpa [aset] using hp
  | cons q rest ih =>
    by_cases h : k = q.1
    · simp [aset, h] at hp
      rcases hp with hp | hp
      · left; rw [hp, h]
      · right; exact List.mem_cons_of_mem _ hp
    · simp [aset, h] at hp
      rcases hp with hp | hp
      · right; simp [hp]
      · rcases ih hp with h' | h'
        · left; exact h'
        · right; exact List.mem_cons_of_mem _ h'

theorem alookup_mem {α β : Type} [DecidableEq α] {k : α} {v : β} {l : List (α × β)}
    (h : alookup k l = some v) : (k, v) ∈ l := by
  induction l with
  | nil => simp [alookup] at h
  | cons p rest ih =>
    by_cases hk : k = p.1
    · simp [alookup, hk] at h
      have hpv : (k, v) = p := by
        rw [hk, ← h]
      rw [hpv]
      exact List.mem_cons_self _ _
    · simp [alookup, hk] at h
      exact List.mem_cons_of_mem _ (ih h)

/-! ### Room-membership lemmas -/

theorem roomMembers_nodup {rooms : List (ChatId × List SocketId)} (h : RoomsWF rooms)
    (c : ChatId) : (roomMembers rooms c).Nodup := by
  unfold roomMembers
  cases hl : alookup c rooms with
  | none => simp
  | some l => simpa using h (c, l) (alookup_mem hl)

theorem roomMembers_joinRoom_ne {c c' : ChatId} (s : SocketId)
    (rooms : List (ChatId × List SocketId)) (h : c' ≠ c) :
    roomMembers (joinRoom c s rooms) c' = roomMembers rooms c' := by
  unfold joinRoom roomMembers
  rw [alookup_aset_ne _ _ h]

theorem roomMembers_joinRoom_self (c : ChatId) (s : SocketId)
    (rooms : List (ChatId × List SocketId)) :
    roomMembers (joinRoom c s rooms) c =
      (if s ∈ roomMembers rooms c then roomMembers rooms c
       else roomMembers rooms c ++ [s]) := by
  unfold joinRoom roomMembers
  rw [alookup_aset_self]
  rfl

theorem mem_joinRoom {x : SocketId} {c c' : ChatId} {s : SocketId}
    {rooms : List (ChatId × List SocketId)} :
    x ∈ roomMembers (joinRoom c s rooms) c' ↔
      x ∈ roomMembers rooms c' ∨ (c' = c ∧ x = s) := by
  by_cases h : c' = c
  · rw [h, roomMembers_joinRoom_self c s rooms]
    by_cases hs : s ∈ roomMembers rooms c
    · rw [if_pos hs]
      constructor
      · intro hx
        exact Or.inl hx
      · intro hx
        rcases hx with hx | hx
        · exact hx
        · rw [hx.2]
          exact hs
    · rw [if_neg hs, List.mem_append, List.mem_singleton]
      constructor
      · intro hx
        rcases hx with hx | hx
        · exact Or.inl hx
        · exact Or.inr ⟨rfl, hx⟩
      · intro hx
        rcases hx with hx | hx
        · exact Or.inl hx
        · exact Or.inr hx.2
  · rw [roomMembers_joinRoom_ne _ _ h]
    constructor
    · intro hx
      exact Or.inl hx
    · intro hx
      rcases hx with hx | hx
      · exact hx
      · exact absurd hx.1 h

theorem roomsWF_joinRoom {rooms : List (ChatId × List SocketId)} (h : RoomsWF rooms)
    (c : ChatId) (s : SocketId) : RoomsWF (joinRoom c s rooms) := by
  intro p hp
  unfold joinRoom at hp
  rcases mem_aset hp with hp' | hp'
  · rw [hp']
    by_cases hs : s ∈ roomMembers rooms c
    · simpa [hs] using roomMembers_nodup h c
    · simp only [hs, if_false]
      exact List.Nodup.append (roomMembers_nodup h c) (List.nodup_singleton s)
        (by simpa using hs)
  · exact h p hp'

theorem mem_forceJoin {x : SocketId} {c chatId : ChatId} {parts : List UserId}
    (ctxs : List ConnCtx) (rooms : List (ChatId × List SocketId)) :
    x ∈ roomMembers (forceJoin chatId parts ctxs rooms) c ↔
      x ∈ roomMembers rooms c ∨
        (c = chatId ∧ ∃ c' ∈ ctxs, c'.userId ∈ parts ∧ c'.socketId = x) := by
  induction ctxs generalizing rooms with
  | nil => simp [forceJoin]
  | cons c0 rest ih =>
    by_cases hc0 : c0.userId ∈ parts
    · rw [show forceJoin chatId parts (c0 :: rest) rooms =
          forceJoin chatId parts rest (joinRoom chatId c0.socketId rooms) from by
        simp [forceJoin, hc0]]
      rw [ih, mem_joinRoom]
      constructor
      · intro hx
        rcases hx with (hx | hx) | hx
        · exact Or.inl hx
        · exact Or.inr ⟨hx.1, c0, List.mem_cons_self _ _, hc0, hx.2.symm⟩
        · exact Or.inr ⟨hx.1, hx.2.choose,
            List.mem_cons_of_mem _ hx.2.choose_spec.1, hx.2.choose_spec.2⟩
      · intro hx
        rcases hx with hx | ⟨hc, c', hc', hpart, hsock⟩
        · exact Or.inl (Or.inl hx)
        · rcases List.mem_cons.mp hc' with h0 | h0
          · exact Or.inl (Or.inr ⟨hc, by rw [← hsock, h0]⟩)
          · exact Or.inr ⟨hc, c', h0, hpart, hsock⟩
    · rw [show forceJoin chatId parts (c0 :: rest) rooms =
          forceJoin chatId parts rest rooms from by
        simp [forceJoin, hc0]]
      rw [ih]
      constructor
      · intro hx
        rcases hx with hx | ⟨hc, c', hc', hrest⟩
        · exact Or.inl hx
        · exact Or.inr ⟨hc, c', List.mem_cons_of_mem _ hc', hrest⟩
      · intro hx
        rcases hx with hx | ⟨hc, c', hc', hpart, hsock⟩
        · exact Or.inl hx
        · rcases List.mem_cons.mp hc' with h0 | h0
          · rw [h0] at hpart
            exact absurd hpart hc0
          · exact Or.inr ⟨hc, c', h0, hpart, hsock⟩

theorem roomsWF_forceJoin {rooms : List (ChatId × List SocketId)} (h : RoomsWF rooms)
    (chatId : ChatId) (parts : List UserId) (ctxs : List ConnCtx) :
    RoomsWF (forceJoin chatId parts ctxs rooms) := by
  induction ctxs generalizing rooms with
  | nil => simpa [forceJoin] using h
  | cons c0 rest ih =>
    by_cases hc0 : c0.userId ∈ parts
    · rw [show forceJoin chatId parts (c0 :: rest) rooms =
          forceJoin chatId parts rest (joinRoom chatId c0.socketId rooms) from by
        simp [forceJoin, hc0]]
      exact ih (roomsWF_joinRoom h _ _)
    · rw [show forceJoin chatId parts (c0 :: rest) rooms =
          forceJoin chatId parts rest rooms from by
        simp [forceJoin, hc0]]
      exact ih h

/-! ### Counting and trace lemmas -/

theorem countOnline_append (u : UserId) (a b : List Delivery) :
    countOnline u (a ++ b) = countOnline u a + countOnline u b := by
  simp [countOnline, List.filter_append]

theorem countOffline_append (u : UserId) (a b : List Delivery) :
    countOffline u (a ++ b) = countOffline u a + countOffline u b := by
  simp [countOffline, List.filter_append]

theorem runEvents_nil (st : ServerState) : runEvents st [] = (st, []) := rfl

theorem runEvents_cons (st : ServerState) (e : InEvent) (rest : List InEvent) :
    runEvents st (e :: rest) =
      ((runEvents (stepEv st e).1 rest).1,
       (stepEv st e).2 ++ (runEvents (stepEv st e).1 rest).2) := rfl

theorem chatsOf_congr {st st' : ServerState} (h : st'.chats = st.chats) (u : UserId) :
    chatsOf st' u = chatsOf st u := by
  simp [chatsOf, h]

theorem onConnection_chats (st : ServerState) (p : JWTPayload) (s : SocketId) :
    (onConnection st p s).1.chats = st.chats := by
  simp [onConnection]

theorem onConnection_ctxs (st : ServerState) (p : JWTPayload) (s : SocketId) :
    (onConnection st p s).1.ctxs = st.ctxs ++ [connCtxOf st p s] := by
  simp [onConnection, connCtxOf]

theorem onConnection_reg (st : ServerState) (p : JWTPayload) (s : SocketId) :
    (onConnection st p s).1.connectedUsers
      = registerConn p.id s p.username st.connectedUsers := by
  simp [onConnection]

theorem onConnection_deliv (st : ServerState) (p : JWTPayload) (s : SocketId) :
    (onConnection st p s).2
      = (chatsOf st p.id).map
          (fun c => emitRoom (onConnection st p s).1 c.id
            (.user_online p.id p.username c.id)) := by
  simp [onConnection]

theorem countOnline_connDeliv (u w : String) (st' : ServerState) (chats : List Chat) :
    countOnline u (chats.map (fun c => emitRoom st' c.id (.user_online u w c.id)))
      = chats.length := by
  induction chats with
  | nil => rfl
  | cons c rest ih =>
    simp only [List.map_cons, countOnline, emitRoom, List.filter_cons] at ih ⊢
    simp only [decide_eq_true_eq]
    rw [if_pos trivial]
    simp [ih]

theorem countOffline_discDeliv (u w : String) (st' : ServerState) (cs : List ChatId) :
    countOffline u (cs.map (fun c => emitRoom st' c (.user_offline u w c)))
      = cs.length := by
  induction cs with
  | nil => rfl
  | cons c rest ih =>
    simp only [List.map_cons, countOffline, emitRoom, List.filter_cons] at ih ⊢
    simp only [decide_eq_true_eq]
    rw [if_pos trivial]
    simp [ih]

theorem countOnline_registerDeliv (p : JWTPayload) (st : ServerState) (s : SocketId) :
    countOnline p.id (onConnection st p s).2 = (chatsOf st p.id).length := by
  rw [onConnection_deliv]
  exact countOnline_connDeliv p.id p.username _ _

/-- Characterization of running a block of connections for the same user:
the chat collection is untouched, one closure per socket is appended with
the connection-time snapshot, the registry entry for the user grows by one
`SocketUser` per socket, and — the crux — every single connection emits one
`user_online` per chat of the user, so the block emits
`socks.length * (number of chats)` online events. -/
theorem runConns_spec (p : JWTPayload) (socks : List SocketId) :
    ∀ st : ServerState,
    (runEvents st (socks.map (fun s => InEvent.conn p s))).1.chats = st.chats
  ∧ (runEvents st (socks.map (fun s => InEvent.conn p s))).1.ctxs
      = st.ctxs ++ socks.map (fun s => connCtxOf st p s)
  ∧ (alookup p.id (runEvents st (socks.map (fun s => InEvent.conn p s))).1.connectedUsers).getD []
      = (alookup p.id st.connectedUsers).getD [] ++ socks.map (fun s => connEntry p s)
  ∧ (socks ≠ [] →
      (alookup p.id (runEvents st (socks.map (fun s => InEvent.conn p s))).1.connectedUsers).isSome)
  ∧ countOnline p.id (runEvents st (socks.map (fun s => InEvent.conn p s))).2
      = socks.length * (chatsOf st p.id).length := by
  induction socks with
  | nil =>
    intro st
    refine ⟨rfl, by simp [runEvents], by simp [runEvents], fun h => absurd rfl h, ?_⟩
    simp [runEvents, countOnline]
  | cons s rest ih =>
    intro st
    have hstep : stepEv st (InEvent.conn p s) = onConnection st p s := rfl
    have hchats1 := onConnection_chats st p s
    have hctxs1 := onConnection_ctxs st p s
    have hreg1 := onConnection_reg st p s
    obtain ⟨ihchats, ihctxs, ihreg, ihsome, ihcount⟩ := ih (onConnection st p s).1
    have hco : chatsOf (onConnection st p s).1 p.id = chatsOf st p.id :=
      chatsOf_congr hchats1 p.id
    have hlook1 : alookup p.id (onConnection st p s).1.connectedUsers
        = some ((alookup p.id st.connectedUsers).getD [] ++ [connEntry p s]) := by
      rw [hreg1]
      unfold registerConn
      rw [alookup_aset_self]
      rfl
    constructor
    · rw [List.map_cons, runEvents_cons, hstep]
      rw [ihchats, hchats1]
    constructor
    · rw [List.map_cons, runEvents_cons, hstep]
      rw [ihctxs, hctxs1]
      have hmap : rest.map (fun s' => connCtxOf (onConnection st p s).1 p s')
          = rest.map (fun s' => connCtxOf st p s') := by
        apply List.map_congr_left
        intro x _
        simp [connCtxOf, hco]
      rw [hmap, List.append_assoc]
      rfl
    constructor
    · rw [List.map_cons, runEvents_cons, hstep]
      rw [ihreg, hlook1]
      simp [List.append_assoc]
    constructor
    · intro _
      rw [List.map_cons, runEvents_cons, hstep]
      cases rest with
      | nil =>
        simp only [List.map_nil, runEvents_nil]
        rw [hlook1]
        rfl
      | cons r rs =>
        exact ihsome (by simp)
    · rw [List.map_cons, runEvents_cons, hstep]
      rw [countOnline_append, countOnline_registerDeliv, ihcount, hco]
      rw [List.length_cons, Nat.succ_mul]
      omega

theorem find_mapCtx (u w : String) (cs : List ChatId) (rem : List SocketId) (d : SocketId)
    (hd : d ∈ rem) :
    (rem.map (fun s => (⟨u, s, w, cs⟩ : ConnCtx))).find? (fun c => c.socketId = d)
      = some ⟨u, d, w, cs⟩ := by
  induction rem with
  | nil => cases hd
  | cons s rest ih =>
    by_cases hs : s = d
    · rw [List.map_cons, List.find?_cons_of_pos]
      · rw [hs]
      · simp [hs]
    · rw [List.map_cons, List.find?_cons_of_neg]
      · exact ih (by
          rcases List.mem_cons.mp hd with h | h
          · exact absurd h.symm hs
          · exact h)
      · simp [hs]

theorem ctxFor_map {st : ServerState} (u w : String) (cs : List ChatId)
    (rem : List SocketId) (d : SocketId)
    (hctxs : st.ctxs = rem.map (fun s => (⟨u, s, w, cs⟩ : ConnCtx)))
    (hd : d ∈ rem) : ctxFor st d = some ⟨u, d, w, cs⟩ := by
  unfold ctxFor
  rw [hctxs]
  exact find_mapCtx u w cs rem d hd

theorem filter_mapCtx (u w : String) (cs : List ChatId) (rem : List SocketId) (d : SocketId) :
    (rem.map (fun s => (⟨u, s, w, cs⟩ : ConnCtx))).filter (fun c => c.socketId ≠ d)
      = (rem.filter (fun x => x ≠ d)).map (fun s => ⟨u, s, w, cs⟩) := by
  induction rem with
  | nil => rfl
  | cons s rest ih =>
    simp only [ne_eq, decide_not] at ih ⊢
    by_cases hs : s = d
    · simp [hs, ih]
    · simp [hs, ih]

theorem filter_mapEntry (p : JWTPayload) (rem : List SocketId) (d : SocketId) :
    (rem.map (fun s => connEntry p s)).filter (fun e => e.socketId ≠ d)
      = (rem.filter (fun x => x ≠ d)).map (fun s => connEntry p s) := by
  induction rem with
  | nil => rfl
  | cons s rest ih =>
    simp only [connEntry, ne_eq, decide_not] at ih ⊢
    by_cases hs : s = d
    · simp [hs, ih]
    · simp [hs, ih]

/-- Characterization of the `disconnect` handler for a connection of user
`u` with registry entry `es`: the matching `SocketUser` entries are filtered
out; when nothing remains the user's key is deleted and one `user_offline`
fires per snapshot chat; otherwise the filtered list is stored back and
nothing is emitted. -/
theorem onDisconnect_spec (st : ServerState) (u d w : String) (cs : List ChatId)
    (es : List SocketUser) (hlook : alookup u st.connectedUsers = some es) :
    ((es.filter (fun e => e.socketId ≠ d)) = [] →
       alookup u (onDisconnect st ⟨u, d, w, cs⟩).1.connectedUsers = none
       ∧ (onDisconnect st ⟨u, d, w, cs⟩).1.ctxs = st.ctxs.filter (fun c => c.socketId ≠ d)
       ∧ countOffline u (onDisconnect st ⟨u, d, w, cs⟩).2 = cs.length)
  ∧ ((es.filter (fun e => e.socketId ≠ d)) ≠ [] →
       alookup u (onDisconnect st ⟨u, d, w, cs⟩).1.connectedUsers
         = some (es.filter (fun e => e.socketId ≠ d))
       ∧ (onDisconnect st ⟨u, d, w, cs⟩).1.ctxs = st.ctxs.filter (fun c => c.socketId ≠ d)
       ∧ (onDisconnect st ⟨u, d, w, cs⟩).2 = []) := by
  constructor
  · intro hf
    have hrun : onDisconnect st ⟨u, d, w, cs⟩
        = (let st1 : ServerState :=
            { st with rooms := leaveAllRooms d st.rooms,
                      ctxs := st.ctxs.filter (fun c => c.socketId ≠ d) }
           let st2 : ServerState :=
            { st1 with connectedUsers := adel u st1.connectedUsers,
                       users := updateUser u
                         (fun r => { r with isOnline := false, lastSeen := some st.now }) st1.users }
           (st2, cs.map (fun c => emitRoom st2 c (.user_offline u w c)))) := by
      simp only [onDisconnect, unregisterConn, hlook, hf, if_true]
      try rfl
    rw [hrun]
    refine ⟨?_, rfl, ?_⟩
    · exact alookup_adel_self u _
    · exact countOffline_discDeliv u w _ cs
  · intro hf
    have hrun : onDisconnect st ⟨u, d, w, cs⟩
        = (let st1 : ServerState :=
            { st with rooms := leaveAllRooms d st.rooms,
                      ctxs := st.ctxs.filter (fun c => c.socketId ≠ d) }
           ({ st1 with connectedUsers := aset u (es.filter (fun e => e.socketId ≠ d)) st1.connectedUsers },
            ([] : List Delivery))) := by
      simp only [onDisconnect, unregisterConn, hlook, hf, if_false]
      try rfl
    rw [hrun]
    refine ⟨?_, rfl, rfl⟩
    exact alookup_aset_self u _ _

/-- Characterization of running a block of disconnections `ds` for
connections of one user, when the registry holds exactly `rem` entries for
the user: nothing is emitted for the user until the disconnect that empties
the registry entry, which emits exactly one `user_offline` per chat of the
connection-time snapshot; the block ends with an offline batch exactly when
`ds` exhausts `rem`. -/
theorem runDiscs_spec (p : JWTPayload) (cs : List ChatId) :
    ∀ (ds rem : List SocketId), ds.Nodup → rem.Nodup → (∀ x ∈ ds, x ∈ rem) → rem ≠ [] →
    ∀ st : ServerState,
    st.ctxs = rem.map (fun s => (⟨p.id, s, p.username, cs⟩ : ConnCtx)) →
    alookup p.id st.connectedUsers = some (rem.map (fun s => connEntry p s)) →
    countOffline p.id (runEvents st (ds.map InEvent.disc)).2
      = (if ∀ x ∈ rem, x ∈ ds then cs.length else 0) := by
  intro ds
  induction ds with
  | nil =>
    intro rem _ _ _ hremne st _ _
    obtain ⟨x, hx⟩ := List.exists_mem_of_ne_nil rem hremne
    rw [if_neg (by
      intro hall
      exact (List.not_mem_nil x) (hall x hx))]
    rfl
  | cons d ds' ih =>
    intro rem hndds hndrem hsub hremne st hctxs hlook
    have hd : d ∈ rem := hsub d (List.mem_cons_self d ds')
    have hctxfind : ctxFor st d = some ⟨p.id, d, p.username, cs⟩ :=
      ctxFor_map p.id p.username cs rem d hctxs hd
    have hstep : stepEv st (InEvent.disc d) = onDisconnect st ⟨p.id, d, p.username, cs⟩ := by
      simp [stepEv, hctxfind]
    have hfiltes : (rem.map (fun s => connEntry p s)).filter (fun e => e.socketId ≠ d)
        = (rem.filter (fun x => x ≠ d)).map (fun s => connEntry p s) :=
      filter_mapEntry p rem d
    have hspec := onDisconnect_spec st p.id d p.username cs _ hlook
    rw [List.map_cons, runEvents_cons, hstep, countOffline_append]
    by_cases hrem : rem.filter (fun x => x ≠ d) = []
    · have hall : ∀ x ∈ rem, x = d := by
        intro x hx
        by_contra hne
        have : x ∈ rem.filter (fun x => x ≠ d) := by
          rw [List.mem_filter]
          exact ⟨hx, by simpa using hne⟩
        rw [hrem] at this
        exact (List.not_mem_nil x) this
      have hfe : (rem.map (fun s => connEntry p s)).filter (fun e => e.socketId ≠ d) = [] := by
        rw [hfiltes, hrem]
        rfl
      obtain ⟨hlook2, hctxs2, hcount⟩ := hspec.1 hfe
      have hds' : ds' = [] := by
        rcases ds' with _ | ⟨a, as⟩
        · rfl
        · exfalso
          have ha : a ∈ rem := hsub a (by simp)
          have : a = d := hall a ha
          have hdnot : d ∉ (a :: as) := by
            have := hndds
            rw [List.nodup_cons] at this
            exact this.1
          rw [this] at hdnot
          exact hdnot (by simp)
      rw [hds']
      simp only [List.map_nil, runEvents_nil]
      rw [hcount]
      rw [if_pos (by
        intro x hx
        rw [hall x hx]
        exact List.mem_cons_self d [])]
      simp [countOffline]
    · have hfe : (rem.map (fun s => connEntry p s)).filter (fun e => e.socketId ≠ d) ≠ [] := by
        rw [hfiltes]
        intro hcon
        exact hrem (List.map_eq_nil_iff.mp hcon)
      obtain ⟨hlook2, hctxs2, hdeliv⟩ := hspec.2 hfe
      have hctxs3 : (onDisconnect st ⟨p.id, d, p.username, cs⟩).1.ctxs
          = (rem.filter (fun x => x ≠ d)).map (fun s => (⟨p.id, s, p.username, cs⟩ : ConnCtx)) := by
        rw [hctxs2, hctxs]
        exact filter_mapCtx p.id p.username cs rem d
      have hlook3 : alookup p.id (onDisconnect st ⟨p.id, d, p.username, cs⟩).1.connectedUsers
          = some ((rem.filter (fun x => x ≠ d)).map (fun s => connEntry p s)) := by
        rw [hlook2, hfiltes]
      have hihsub : ∀ x ∈ ds', x ∈ rem.filter (fun x => x ≠ d) := by
        intro x hx
        rw [List.mem_filter]
        refine ⟨hsub x (List.mem_cons_of_mem _ hx), ?_⟩
        have hdnot : d ∉ ds' := by
          have := hndds
          rw [List.nodup_cons] at this
          exact this.1
        simp only [ne_eq, decide_eq_true_eq]
        intro hxd
        rw [hxd] at hx
        exact hdnot hx
      have hihnd : ds'.Nodup := by
        have := hndds
        rw [List.nodup_cons] at this
        exact this.2
      have := ih (rem.filter (fun x => x ≠ d)) hihnd (List.Nodup.filter _ hndrem)
        hihsub hrem _ hctxs3 hlook3
      rw [hdeliv, this]
      have hiff : (∀ x ∈ rem, x ∈ d :: ds') ↔ (∀ x ∈ rem.filter (fun x => x ≠ d), x ∈ ds') := by
        constructor
        · intro hall x hx
          rw [List.mem_filter] at hx
          rcases List.mem_cons.mp (hall x hx.1) with h | h
          · exfalso
            have := hx.2
            rw [h] at this
            simp at this
          · exact h
        · intro hall x hx
          by_cases hxd : x = d
          · rw [hxd]
            exact List.mem_cons_self d ds'
          · refine List.mem_cons_of_mem _ (hall x ?_)
            rw [List.mem_filter]
            exact ⟨hx, by simpa using hxd⟩
      rw [if_congr hiff rfl rfl]
      simp [countOffline]

/-- C1 (corrected): over a trace in which a user's `N` distinct connections
all connect and then all disconnect in any order, the code emits one
`user_online` batch (one event per chat of the user) for EVERY connection —
`N * chats` events in total, not one batch — because the connection handler
emits unconditionally; the offline half of the claim holds: no
`user_offline` fires while any connection remains, and the final disconnect
emits exactly one `user_offline` per chat of the user. -/

theorem C1_presence_edges (tokens : List (String × JWTPayload))
    (users : List (UserId × UserRec)) (db : List Chat) (p : JWTPayload)
    (socks : List SocketId) (hnd : socks.Nodup) (hne : socks ≠ [])
    (ds : List SocketId) (hperm : ds.Perm socks) :
    countOnline p.id (runEvents (initialState tokens users db)
        (socks.map (fun s => InEvent.conn p s))).2
      = socks.length * (chatsOf (initialState tokens users db) p.id).length
  ∧ (∀ k, k < ds.length →
      countOffline p.id
        (runEvents
          (runEvents (initialState tokens users db) (socks.map (fun s => InEvent.conn p s))).1
          ((ds.take k).map InEvent.disc)).2 = 0)
  ∧ countOffline p.id
      (runEvents
        (runEvents (initialState tokens users db) (socks.map (fun s => InEvent.conn p s))).1
        (ds.map InEvent.disc)).2
      = (chatsOf (initialState tokens users db) p.id).length := by
  obtain ⟨hchats, hctxs, hreg, hsome, hcount⟩ :=
    runConns_spec p socks (initialState tokens users db)
  have hds : ds.Nodup := hperm.nodup_iff.mpr hnd
  have hlends : ds.length = socks.length := hperm.length_eq
  have hlook1 : alookup p.id
      (runEvents (initialState tokens users db)
        (socks.map (fun s => InEvent.conn p s))).1.connectedUsers
      = some (socks.map (fun s => connEntry p s)) := by
    have h2 := hsome hne
    cases hx : alookup p.id
        (runEvents (initialState tokens users db)
          (socks.map (fun s => InEvent.conn p s))).1.connectedUsers with
    | none =>
      rw [hx] at h2
      cases h2
    | some l =>
      rw [hx] at hreg
      have hreg0 : alookup p.id (initialState tokens users db).connectedUsers
          = (none : Option (List SocketUser)) := rfl
      rw [hreg0] at hreg
      simp only [Option.getD_none, Option.getD_some, List.nil_append] at hreg
      rw [hreg]
  have hctxs1 : (runEvents (initialState tokens users db)
      (socks.map (fun s => InEvent.conn p s))).1.ctxs
      = socks.map (fun s =>
          (⟨p.id, s, p.username,
            (chatsOf (initialState tokens users db) p.id).map (fun c => c.id)⟩ : ConnCtx)) := by
    rw [hctxs]
    have hctxs0 : (initialState tokens users db).ctxs = [] := rfl
    rw [hctxs0, List.nil_append]
    apply List.map_congr_left
    intro x _
    rfl
  refine ⟨hcount, ?_, ?_⟩
  · intro k hk
    have hres := runDiscs_spec p
      ((chatsOf (initialState tokens users db) p.id).map (fun c => c.id))
      (ds.take k) socks
      (hds.sublist (List.take_sublist k ds))
      hnd
      (fun x hx => hperm.mem_iff.mp (List.take_subset k ds hx))
      hne _ hctxs1 hlook1
    rw [hres, if_neg]
    intro hall
    have hsubp : List.Subperm socks (ds.take k) := hnd.subperm hall
    have h1 : socks.length ≤ (ds.take k).length := hsubp.length_le
    have h2 : (ds.take k).length ≤ k := by
      rw [List.length_take]
      exact min_le_left k ds.length
    omega
  · have hres := runDiscs_spec p
      ((chatsOf (initialState tokens users db) p.id).map (fun c => c.id))
      ds socks hds hnd (fun x hx => hperm.mem_iff.mp hx) hne _ hctxs1 hlook1
    rw [hres, if_pos]
    · simp
    · intro x hx
      exact hperm.mem_iff.mpr hx

/-- C1 counterexample: user `u` participates in one chat and opens two
simultaneous connections; the claim allows exactly one `user_online` for the
first registration and none for the second, but the code emits one per
connection: two in total. -/
theorem C1_counterexample :
    countOnline "u" (runEvents stStart
      (["s1", "s2"].map (fun s => InEvent.conn ⟨"u", "alice"⟩ s))).2 = 2 := by
  decide

/-- Witness instantiating the C1 theorem: two connections `s1`, `s2` of user
`u`, disconnected in the order `s2`, `s1`. -/
theorem C1_presence_edges_witness :
    countOnline (⟨"u", "alice"⟩ : JWTPayload).id (runEvents (initialState tokensC usersC dbC)
        (["s1", "s2"].map (fun s => InEvent.conn (⟨"u", "alice"⟩ : JWTPayload) s))).2
      = (["s1", "s2"] : List SocketId).length
          * (chatsOf (initialState tokensC usersC dbC) (⟨"u", "alice"⟩ : JWTPayload).id).length
  ∧ (∀ k, k < (["s2", "s1"] : List SocketId).length →
      countOffline (⟨"u", "alice"⟩ : JWTPayload).id
        (runEvents
          (runEvents (initialState tokensC usersC dbC)
            (["s1", "s2"].map (fun s => InEvent.conn (⟨"u", "alice"⟩ : JWTPayload) s))).1
          ((["s2", "s1"].take k).map InEvent.disc)).2 = 0)
  ∧ countOffline (⟨"u", "alice"⟩ : JWTPayload).id
      (runEvents
        (runEvents (initialState tokensC usersC dbC)
          (["s1", "s2"].map (fun s => InEvent.conn (⟨"u", "alice"⟩ : JWTPayload) s))).1
        (["s2", "s1"].map InEvent.disc)).2
      = (chatsOf (initialState tokensC usersC dbC) (⟨"u", "alice"⟩ : JWTPayload).id).length :=
  C1_presence_edges tokensC usersC dbC ⟨"u", "alice"⟩ ["s1", "s2"]
    (by decide) (by decide) ["s2", "s1"] (by decide)

/-- Reduction of `unregisterConn` when the user has no registry entry. -/
theorem unregisterConn_none {u : UserId} {s : SocketId} {r : List (UserId × List SocketUser)}
    (hl : alookup u r = none) : unregisterConn u s r = (r, false) := by
  unfold unregisterConn
  rw [hl]

/-- Reduction of `unregisterConn` when the user has a registry entry. -/
theorem unregisterConn_some {u : UserId} {s : SocketId} {r : List (UserId × List SocketUser)}
    {l : List SocketUser} (hl : alookup u r = some l) :
    unregisterConn u s r
      = (if l.filter (fun e => e.socketId ≠ s) = [] then (adel u r, true)
         else (aset u (l.filter (fun e => e.socketId ≠ s)) r, false)) := by
  unfold unregisterConn
  rw [hl]

/-- C2 counterexample: `x` is not a participant of `c1`; the claim requires
a point-to-point `error` to always be emitted, but the handler's
participant check has no else-branch: the event is ignored silently, with no
emission at all. -/
theorem C2_counterexample :
    findChatFor stStart "c1" "x" = none
  ∧ (joinChat stStart ctxX "c1").1.rooms = stStart.rooms
  ∧ (joinChat stStart ctxX "c1").2 = [] := by
  decide

/-- C2 (corrected): a `join_chat` whose user is not a participant of the
target chat leaves the whole server state unchanged and emits nothing at
all — in particular no room-membership change, but also no `error` event
(the `error` branch of the handler is reserved for collaborator
exceptions). -/
theorem C2_nonparticipant_join (st : ServerState) (ctx : ConnCtx) (chatId : ChatId)
    (h : findChatFor st chatId ctx.userId = none) :
    joinChat st ctx chatId = (st, []) := by
  unfold joinChat
  rw [h]

/-- Witness instantiating the C2 theorem on the outsider `x`. -/
theorem C2_nonparticipant_join_witness :
    joinChat stStart ctxX "c1" = (stStart, []) :=
  C2_nonparticipant_join stStart ctxX "c1" (by rfl)

/-- C9: when the auth middleware rejects the handshake (missing or invalid
bearer credential), the connection is answered with only the
connection-level error, the connection handler does not run, and no state
(registry, rooms, closures, collections) changes. -/
theorem C9_auth_rejection (st : ServerState) (auth authHeader : Option String)
    (s : SocketId) (e : String)
    (hfail : authenticate st.tokens auth authHeader = .error e) :
    (handleConnection st auth authHeader s).1 = st
  ∧ (handleConnection st auth authHeader s).2 = [⟨.connError e, [s]⟩] := by
  unfold handleConnection
  rw [hfail]
  exact ⟨rfl, rfl⟩

/-- Witness instantiating the C9 theorem on a handshake with no token. -/
theorem C9_auth_rejection_witness :
    (handleConnection stStart none none "s9").1 = stStart
  ∧ (handleConnection stStart none none "s9").2
      = [⟨.connError "Authentication error: No token provided", ["s9"]⟩] :=
  C9_auth_rejection stStart none none "s9" "Authentication error: No token provided" (by rfl)

/-- C10: (a) in every registry state reachable via the connection handler's
insert and the disconnect handler's removal, every user key maps to a
non-empty connection list; (b) the removal keeps, for the disconnecting
user, exactly the entries whose `socketId` differs from the disconnecting
socket, deleting the user's key exactly when none remain, and leaves every
other user's entry untouched. -/
theorem C10_registry_invariant :
    (∀ r, RegReach r → ∀ pr ∈ r, pr.2 ≠ [])
  ∧ (∀ (r : List (UserId × List SocketUser)) (u : UserId) (s : SocketId)
        (l : List SocketUser), alookup u r = some l →
      alookup u (unregisterConn u s r).1
        = (if l.filter (fun e => e.socketId ≠ s) = [] then none
           else some (l.filter (fun e => e.socketId ≠ s))))
  ∧ (∀ (r : List (UserId × List SocketUser)) (u : UserId) (s : SocketId),
      alookup u r = none → alookup u (unregisterConn u s r).1 = none)
  ∧ (∀ (r : List (UserId × List SocketUser)) (u : UserId) (s : SocketId) (v : UserId),
      v ≠ u → alookup v (unregisterConn u s r).1 = alookup v r) := by
  refine ⟨?_, ?_, ?_, ?_⟩
  · intro r hr
    induction hr with
    | init =>
      intro pr hpr
      cases hpr
    | register u s w h ih =>
      intro pr hpr
      unfold registerConn at hpr
      rcases mem_aset hpr with hp | hp
      · rw [hp]
        simp
      · exact ih pr hp
    | unregister u s h ih =>
      intro pr hpr
      cases hl : alookup u _ with
      | none =>
        rw [unregisterConn_none hl] at hpr
        exact ih pr hpr
      | some l =>
        rw [unregisterConn_some hl] at hpr
        by_cases hf : l.filter (fun e => e.socketId ≠ s) = []
        · rw [if_pos hf] at hpr
          exact ih pr (List.mem_of_mem_filter hpr)
        · rw [if_neg hf] at hpr
          rcases mem_aset hpr with hp | hp
          · rw [hp]
            exact hf
          · exact ih pr hp
  · intro r u s l hl
    rw [unregisterConn_some hl]
    by_cases hf : l.filter (fun e => e.socketId ≠ s) = []
    · rw [if_pos hf, if_pos hf]
      exact alookup_adel_self u r
    · rw [if_neg hf, if_neg hf]
      exact alookup_aset_self u _ r
  · intro r u s hl
    rw [unregisterConn_none hl]
    exact hl
  · intro r u s v hv
    cases hl : alookup u r with
    | none =>
      rw [unregisterConn_none hl]
    | some l =>
      rw [unregisterConn_some hl]
      by_cases hf : l.filter (fun e => e.socketId ≠ s) = []
      · rw [if_pos hf]
        exact alookup_adel_ne r hv
      · rw [if_neg hf]
        exact alookup_aset_ne _ r hv

/-- Witness instantiating the C10 theorem: after registering one connection
for `u` its entry is non-empty, and unregistering that connection deletes
the key. -/
theorem C10_registry_invariant_witness :
    ([(⟨"u", "s1", "alice"⟩ : SocketUser)] ≠ [])
  ∧ alookup "u" (unregisterConn "u" "s1" (registerConn "u" "s1" "alice" [])).1
      = (none : Option (List SocketUser)) := by
  constructor
  · exact C10_registry_invariant.1 (registerConn "u" "s1" "alice" [])
      (RegReach.register "u" "s1" "alice" RegReach.init)
      ("u", [⟨"u", "s1", "alice"⟩]) (by decide)
  · have h := C10_registry_invariant.2.1 (registerConn "u" "s1" "alice" []) "u" "s1"
      [⟨"u", "s1", "alice"⟩] (by rfl)
    rw [h]
    rfl

/-- C5 counterexample: `x` is not a participant of `c1`, yet its
`stop_typing` is forwarded to the room — the handler has no participant
check, unlike `typing`. -/
theorem C5_counterexample :
    findChatFor stC5 "c1" "x" = none
  ∧ (stopTyping stC5 ctxX "c1").2
      = [⟨.user_stop_typing "c1" "x" "xena", ["sv"]⟩] := by
  decide

/-- C5 (corrected): `typing` emits `user_typing` only when the sender's
user is a participant (and is silent otherwise), but `stop_typing` emits
`user_stop_typing` unconditionally, with no participant check; in both
handlers the recipients are the chat's current room members excluding the
sender, and the sender never receives its own typing events. -/
theorem C5_typing_exclusion (st : ServerState) (ctx : ConnCtx) (chatId : ChatId) :
    ((∃ ch, findChatFor st chatId ctx.userId = some ch) →
       (typing st ctx chatId).2
         = [⟨.user_typing chatId ctx.userId ctx.username,
             (membersOf st chatId).filter (fun x => x ≠ ctx.socketId)⟩])
  ∧ (findChatFor st chatId ctx.userId = none →
       typing st ctx chatId = (st, []))
  ∧ (stopTyping st ctx chatId).2
      = [⟨.user_stop_typing chatId ctx.userId ctx.username,
          (membersOf st chatId).filter (fun x => x ≠ ctx.socketId)⟩]
  ∧ (∀ dv ∈ (typing st ctx chatId).2, ctx.socketId ∉ dv.recipients)
  ∧ (∀ dv ∈ (stopTyping st ctx chatId).2, ctx.socketId ∉ dv.recipients) := by
  refine ⟨?_, ?_, rfl, ?_, ?_⟩
  · rintro ⟨ch, hch⟩
    simp only [typing, hch, emitRoomExcept, membersOf]
  · intro h
    simp only [typing, h]
  · intro dv hdv
    unfold typing at hdv
    cases hch : findChatFor st chatId ctx.userId with
    | none =>
      rw [hch] at hdv
      cases hdv
    | some ch =>
      rw [hch] at hdv
      rcases List.mem_singleton.mp hdv with h
      rw [h]
      intro hmem
      rcases List.mem_filter.mp hmem with ⟨-, hne⟩
      simp at hne
  · intro dv hdv
    rcases List.mem_singleton.mp hdv with h
    rw [h]
    intro hmem
    rcases List.mem_filter.mp hmem with ⟨-, hne⟩
    simp at hne

/-- Witness instantiating the C5 theorem: `u` is a participant of `c1`;
both of its typing events reach only the other member `s2`. -/
theorem C5_typing_exclusion_witness :
    (typing stB ctxU "c1").2 = [⟨.user_typing "c1" "u" "alice", ["s2"]⟩]
  ∧ (stopTyping stB ctxU "c1").2 = [⟨.user_stop_typing "c1" "u" "alice", ["s2"]⟩] := by
  have h := C5_typing_exclusion stB ctxU "c1"
  constructor
  · rw [h.1 ⟨chatC1, by rfl⟩]
    rfl
  · rw [h.2.2.1]
    rfl

/-- C6 counterexample: `u`'s connection has left room `c1` (its snapshot)
and currently sits in room `c2` only; the claim requires `user_presence` to
go to every room the user currently belongs to (`c2`), but the handler uses
the connection-time snapshot and emits only for `c1`. -/
theorem C6_counterexample :
    "s1" ∈ membersOf stC6 "c2"
  ∧ "s1" ∉ membersOf stC6 "c1"
  ∧ ((presenceUpdate stC6 ctxU "away").2.map (fun dv => dv.msg))
      = [.user_presence "u" "alice" "away" "c1"] := by
  decide

/-- C6 (corrected): `presence_update` performs no validation and no
persistence (the state is returned unchanged), and emits `user_presence`
carrying the supplied status string verbatim to the room of every chat in
the connection-time snapshot — not to the rooms the connection currently
belongs to. -/
theorem C6_presence_passthrough (st : ServerState) (ctx : ConnCtx) (status : String) :
    (presenceUpdate st ctx status).1 = st
  ∧ (presenceUpdate st ctx status).2
      = ctx.chatSnapshot.map (fun c =>
          ⟨.user_presence ctx.userId ctx.username status c, membersOf st c⟩) :=
  ⟨rfl, rfl⟩

/-- C7: for a participant sender, a `send_message` whose payload fails
validation — `type = text` with falsy content, or `type ∈ {image, file}`
with falsy file URL — leaves the entire state unchanged (nothing persisted,
last-message pointer untouched) and emits exactly one point-to-point
`error` to the sender. -/
theorem C7_validation (st : ServerState) (ctx : ConnCtx) (d : SendMessageData)
    (chat : Chat) (hchat : findChatFor st d.chatId ctx.userId = some chat) :
    (d.type = some .text → jsTruthy d.content = false →
       sendMessage st ctx d
         = (st, [⟨.errorEv "Content is required for text messages", [ctx.socketId]⟩]))
  ∧ ((d.type = some .image ∨ d.type = some .file) → jsTruthy d.fileUrl = false →
       sendMessage st ctx d
         = (st, [⟨.errorEv "File URL is required for file/image messages", [ctx.socketId]⟩])) := by
  constructor
  · intro ht hc
    have hcond : d.type = some MessageType.text ∧ ¬ jsTruthy d.content = true :=
      ⟨ht, by simp [hc]⟩
    simp only [sendMessage, hchat, if_pos hcond, emitSocket]
  · intro ht hf
    have hne1 : ¬ (d.type = some MessageType.text ∧ ¬ jsTruthy d.content = true) := by
      rintro ⟨htext, -⟩
      rcases ht with h | h <;> rw [h] at htext <;> cases htext
    have hcond : (d.type = some MessageType.image ∨ d.type = some MessageType.file)
        ∧ ¬ jsTruthy d.fileUrl = true := ⟨ht, by simp [hf]⟩
    simp only [sendMessage, hchat, if_neg hne1, if_pos hcond, emitSocket]

/-- Witness instantiating the C7 theorem: an empty text message and an
image message without a file URL, both from participant `u`. -/
theorem C7_validation_witness :
    sendMessage stStart ctxU ⟨"c1", some "", some .text, none, none, none, none⟩
      = (stStart, [⟨.errorEv "Content is required for text messages", ["s1"]⟩])
  ∧ sendMessage stStart ctxU ⟨"c1", none, some .image, none, none, none, none⟩
      = (stStart, [⟨.errorEv "File URL is required for file/image messages", ["s1"]⟩]) :=
  ⟨(C7_validation stStart ctxU ⟨"c1", some "", some .text, none, none, none, none⟩
      chatC1 (by rfl)).1 rfl rfl,
   (C7_validation stStart ctxU ⟨"c1", none, some .image, none, none, none, none⟩
      chatC1 (by rfl)).2 (Or.inl rfl) rfl⟩

theorem findChatFor_spec {st : ServerState} {chatId : ChatId} {u : UserId} {chat : Chat}
    (h : findChatFor st chatId u = some chat) :
    chat.id = chatId ∧ u ∈ chat.participants ∧ chat ∈ st.chats := by
  unfold findChatFor at h
  have hmem := List.mem_of_find?_eq_some h
  have hpred := List.find?_some h
  simp only [decide_eq_true_eq] at hpred
  exact ⟨hpred.1, hpred.2, hmem⟩

/-- Reduction of `send_message` when the participant check and the payload
validation both pass: the rooms become the force-joined rooms, and the two
emissions are `new_message` to the room (resolved after the force-join) and
`message_sent` to the sender. -/
theorem sendMessage_ok (st : ServerState) (ctx : ConnCtx) (d : SendMessageData) (chat : Chat)
    (hchat : findChatFor st d.chatId ctx.userId = some chat)
    (hval1 : d.type = some .text → jsTruthy d.content = true)
    (hval2 : d.type = some .image ∨ d.type = some .file → jsTruthy d.fileUrl = true) :
    (sendMessage st ctx d).1.rooms = forceJoin d.chatId chat.participants st.ctxs st.rooms
  ∧ (sendMessage st ctx d).2
      = [⟨.new_message (mkMessage st ctx d),
          roomMembers (forceJoin d.chatId chat.participants st.ctxs st.rooms) d.chatId⟩,
         ⟨.message_sent st.nextMessageId d.chatId, [ctx.socketId]⟩] := by
  have hne1 : ¬ (d.type = some MessageType.text ∧ ¬ jsTruthy d.content = true) := by
    rintro ⟨htext, hc⟩
    exact hc (hval1 htext)
  have hne2 : ¬ ((d.type = some MessageType.image ∨ d.type = some MessageType.file)
      ∧ ¬ jsTruthy d.fileUrl = true) := by
    rintro ⟨hty, hfu⟩
    exact hfu (hval2 hty)
  simp only [sendMessage, hchat, if_neg hne1, if_neg hne2]
  exact ⟨rfl, rfl⟩

/-- C3: a `send_message` from a participant (with a valid payload) produces
exactly two emissions: one `new_message` whose recipient list is precisely
the chat's current room members — each member exactly once, the sender
among them — and one `message_sent` delivered to the sender only. -/
theorem C3_send_message_fanout (st : ServerState) (ctx : ConnCtx) (d : SendMessageData)
    (chat : Chat) (hchat : findChatFor st d.chatId ctx.userId = some chat)
    (hval1 : d.type = some .text → jsTruthy d.content = true)
    (hval2 : d.type = some .image ∨ d.type = some .file → jsTruthy d.fileUrl = true)
    (hctx : ctx ∈ st.ctxs) (hwf : RoomsWF st.rooms) :
    ∃ m : Message, m.senderId = ctx.userId ∧ m.chatId = d.chatId
    ∧ (sendMessage st ctx d).2
        = [⟨.new_message m, membersOf (sendMessage st ctx d).1 d.chatId⟩,
           ⟨.message_sent m.id d.chatId, [ctx.socketId]⟩]
    ∧ ctx.socketId ∈ membersOf (sendMessage st ctx d).1 d.chatId
    ∧ (membersOf (sendMessage st ctx d).1 d.chatId).Nodup := by
  obtain ⟨hrooms, hdeliv⟩ := sendMessage_ok st ctx d chat hchat hval1 hval2
  have hspec := findChatFor_spec hchat
  have hmem : membersOf (sendMessage st ctx d).1 d.chatId
      = roomMembers (forceJoin d.chatId chat.participants st.ctxs st.rooms) d.chatId := by
    unfold membersOf
    rw [hrooms]
  refine ⟨mkMessage st ctx d, rfl, rfl, ?_, ?_, ?_⟩
  · rw [hdeliv, hmem]
    rfl
  · rw [hmem]
    exact (mem_forceJoin st.ctxs st.rooms).mpr (Or.inr ⟨rfl, ctx, hctx, hspec.2.1, rfl⟩)
  · rw [hmem]
    exact roomMembers_nodup (roomsWF_forceJoin hwf d.chatId chat.participants st.ctxs) d.chatId

/-- Witness instantiating the C3 theorem: `u` sends a text message in `c1`
while `u` and `v` are both connected. -/
theorem C3_send_message_fanout_witness :
    ∃ m : Message, m.senderId = "u" ∧ m.chatId = "c1"
    ∧ (sendMessage stC4 ctxU dmsg).2
        = [⟨.new_message m, membersOf (sendMessage stC4 ctxU dmsg).1 "c1"⟩,
           ⟨.message_sent m.id "c1", [ctxU.socketId]⟩]
    ∧ ctxU.socketId ∈ membersOf (sendMessage stC4 ctxU dmsg).1 "c1"
    ∧ (membersOf (sendMessage stC4 ctxU dmsg).1 "c1").Nodup :=
  C3_send_message_fanout stC4 ctxU dmsg chatC1 (by rfl) (fun _ => rfl)
    (fun h => by rcases h with h | h <;> exact absurd h (by decide)) (by decide) (by decide)

/-- C4 counterexample: `v`'s connection is live but not in room `c1`; a
`send_message` by `u` force-joins it into the room — so an operation other
than `join_chat`/`leave_chat` adds a connection to a room, contradicting
the claim. -/
theorem C4_counterexample :
    "s2" ∉ membersOf stC4 "c1"
  ∧ "s2" ∈ membersOf (sendMessage stC4 ctxU dmsg).1 "c1" := by
  decide

/-- C4 (corrected): room membership starts as the connection-time snapshot
and is changed by `join_chat`/`leave_chat`, but additionally every
successful `send_message` force-joins every connected socket whose user is
a participant of the chat into the chat's room (changing no other room);
`typing`, `stop_typing`, `read_message` and `presence_update` leave
membership unchanged. -/
theorem C4_membership_changes (st : ServerState) (ctx : ConnCtx) (d : SendMessageData)
    (chat : Chat) (hchat : findChatFor st d.chatId ctx.userId = some chat)
    (hval1 : d.type = some .text → jsTruthy d.content = true)
    (hval2 : d.type = some .image ∨ d.type = some .file → jsTruthy d.fileUrl = true) :
    (∀ x c, x ∈ membersOf (sendMessage st ctx d).1 c ↔
        x ∈ membersOf st c ∨
          (c = d.chatId ∧ ∃ c' ∈ st.ctxs, c'.userId ∈ chat.participants ∧ c'.socketId = x))
  ∧ (∀ c, (typing st ctx c).1 = st)
  ∧ (∀ c, (stopTyping st ctx c).1 = st)
  ∧ (∀ c ids, (readMessage st ctx c ids).1.rooms = st.rooms)
  ∧ (∀ status, (presenceUpdate st ctx status).1 = st) := by
  obtain ⟨hrooms, -⟩ := sendMessage_ok st ctx d chat hchat hval1 hval2
  refine ⟨?_, ?_, fun c => rfl, ?_, fun status => rfl⟩
  · intro x c
    unfold membersOf
    rw [hrooms]
    exact mem_forceJoin st.ctxs st.rooms
  · intro c
    unfold typing
    cases h : findChatFor st c ctx.userId <;> rfl
  · intro c ids
    unfold readMessage
    cases h : findChatFor st c ctx.userId <;> rfl

/-- Witness instantiating the C4 theorem: `v`'s socket `s2` enters room
`c1` through `u`'s `send_message`, and `typing` changes nothing. -/
theorem C4_membership_changes_witness :
    "s2" ∈ membersOf (sendMessage stC4 ctxU dmsg).1 "c1"
  ∧ (typing stC4 ctxU "c1").1 = stC4 := by
  have h := C4_membership_changes stC4 ctxU dmsg chatC1 (by rfl) (fun _ => rfl)
    (fun hh => by rcases hh with hh | hh <;> exact absurd hh (by decide))
  exact ⟨(h.1 "s2" "c1").mpr (Or.inr ⟨rfl, ctxV, by decide, by decide, rfl⟩), h.2.1 "c1"⟩

/-- Reduction of `read_message` when the participant check passes. -/
theorem readMessage_some {st : ServerState} {ctx : ConnCtx} {chatId : ChatId}
    {ids : Option (List MessageId)} {ch : Chat}
    (h : findChatFor st chatId ctx.userId = some ch) :
    readMessage st ctx chatId ids
      = ({ st with messages := st.messages.map (fun m =>
            if readTargets ctx.userId chatId ids m then markRead ctx.userId m else m) },
         [⟨.messages_read chatId ctx.userId ctx.username,
           (membersOf st chatId).filter (fun x => x ≠ ctx.socketId)⟩]) := by
  simp only [readMessage, h, emitRoomExcept]

/-- The `updateMany` filter of `read_message`, characterized: a message is
targeted exactly when it belongs to the chat, was authored by someone else,
is not yet read by this user, and — if a non-empty explicit list was
supplied — appears in that list (an absent or empty list matches all). -/
theorem idFilterOk_none (m : Message) : idFilterOk none m = true := rfl

theorem idFilterOk_some (ids : List MessageId) (m : Message) :
    idFilterOk (some ids) m = (if ids.length > 0 then decide (m.id ∈ ids) else true) := rfl

theorem readTargets_iff (u : UserId) (chatId : ChatId)
    (messageIds : Option (List MessageId)) (m : Message) :
    readTargets u chatId messageIds m = true ↔
      ((messageIds = none ∨ messageIds = some [] ∨
          ∃ ids, messageIds = some ids ∧ m.id ∈ ids)
       ∧ m.chatId = chatId ∧ m.senderId ≠ u ∧ u ∉ m.readBy) := by
  unfold readTargets
  simp only [Bool.and_eq_true, decide_eq_true_eq, and_assoc]
  cases messageIds with
  | none => simp [idFilterOk_none]
  | some ids =>
    cases ids with
    | nil =>
      rw [idFilterOk_some]
      simp
    | cons a as =>
      rw [idFilterOk_some, if_pos (by simp)]
      simp only [decide_eq_true_eq]
      constructor
      · intro ⟨hid, hrest⟩
        exact ⟨Or.inr (Or.inr ⟨a :: as, rfl, hid⟩), hrest⟩
      · intro ⟨hid, hrest⟩
        refine ⟨?_, hrest⟩
        rcases hid with hc | hc | ⟨ids2, hids2, hin⟩
        · exact Option.noConfusion hc
        · exact absurd (Option.some.inj hc) (by simp)
        · rw [← Option.some.inj hids2] at hin
          exact hin

/-- C8 counterexample: message `0` from `v` is unread by `u`; a
`read_message` carrying the explicit (empty) list `messageIds = []` should,
per the claim, mark only the listed messages — none — but the handler's
`length > 0` guard routes it to the mark-all branch and message `0` gets
marked read. -/
theorem C8_counterexample :
    (0 : MessageId) ∉ ([] : List MessageId)
  ∧ (readMessage stC8 ctxU "c1" (some [])).1.messages
      = [{ msgV with readBy := ["u"], status := .read }] := by
  decide

/-- C8 (corrected): for a participant, `read_message` marks as read (for
this user) exactly the messages of the chat authored by others and not yet
read by this user — restricted to the supplied `messageIds` when that list
is non-empty, and unrestricted when the list is absent OR empty — and emits
one `messages_read` to the chat's room excluding the sender. -/
theorem C8_read_marking (st : ServerState) (ctx : ConnCtx) (chatId : ChatId)
    (messageIds : Option (List MessageId)) (chat : Chat)
    (hchat : findChatFor st chatId ctx.userId = some chat) :
    List.Forall₂ (fun m m2 =>
        ((m.senderId = ctx.userId → m2 = m)
        ∧ (∀ ids, messageIds = some ids → ids ≠ [] → m.id ∉ ids → m2 = m)
        ∧ (m.chatId ≠ chatId → m2 = m)
        ∧ (ctx.userId ∈ m.readBy → m2 = m)
        ∧ (m.chatId = chatId → m.senderId ≠ ctx.userId → ctx.userId ∉ m.readBy →
            (messageIds = none ∨ messageIds = some [] ∨
              (∃ ids, messageIds = some ids ∧ m.id ∈ ids)) →
            ctx.userId ∈ m2.readBy ∧ m2.status = .read)))
      st.messages (readMessage st ctx chatId messageIds).1.messages
  ∧ (readMessage st ctx chatId messageIds).2
      = [⟨.messages_read chatId ctx.userId ctx.username,
          (membersOf st chatId).filter (fun x => x ≠ ctx.socketId)⟩]
  ∧ (∀ dv ∈ (readMessage st ctx chatId messageIds).2, ctx.socketId ∉ dv.recipients) := by
  have hred := @readMessage_some st ctx chatId messageIds chat hchat
  refine ⟨?_, ?_, ?_⟩
  · rw [hred]
    rw [List.forall₂_map_right_iff]
    rw [List.forall₂_same]
    intro m hm
    by_cases htgt : readTargets ctx.userId chatId messageIds m = true
    · rw [if_pos htgt]
      obtain ⟨hid, hchatid, hsend, hread⟩ := (readTargets_iff _ _ _ _).mp htgt
      refine ⟨?_, ?_, ?_, ?_, ?_⟩
      · intro hs
        exact absurd hs hsend
      · intro ids hids hne hnotin
        exfalso
        rcases hid with hc | hc | ⟨ids2, hids2, hin⟩
        · rw [hids] at hc
          exact Option.noConfusion hc
        · rw [hids] at hc
          exact hne (Option.some.inj hc)
        · rw [hids] at hids2
          rw [← Option.some.inj hids2] at hin
          exact hnotin hin
      · intro hne
        exact absurd hchatid hne
      · intro hr
        exact absurd hr hread
      · intro _ _ _ _
        refine ⟨?_, rfl⟩
        unfold markRead
        simp
    · rw [if_neg htgt]
      refine ⟨fun _ => rfl, fun _ _ _ _ => rfl, fun _ => rfl, fun _ => rfl, ?_⟩
      intro hchatid hsender hnotread hcase
      exact absurd ((readTargets_iff _ _ _ _).mpr ⟨hcase, hchatid, hsender, hnotread⟩) htgt
  · rw [hred]
  · rw [hred]
    intro dv hdv
    rcases List.mem_singleton.mp hdv with h
    rw [h]
    intro hmem
    rcases List.mem_filter.mp hmem with ⟨-, hne⟩
    simp at hne

/-- Witness instantiating the C8 theorem: `u` reads chat `c1` with no
explicit list; `v`'s message becomes read and the notification excludes the
(sole) sender socket. -/
theorem C8_read_marking_witness :
    List.Forall₂ (fun m m2 =>
        ((m.senderId = "u" → m2 = m)
        ∧ (∀ ids, (none : Option (List MessageId)) = some ids → ids ≠ [] → m.id ∉ ids → m2 = m)
        ∧ (m.chatId ≠ "c1" → m2 = m)
        ∧ ("u" ∈ m.readBy → m2 = m)
        ∧ (m.chatId = "c1" → m.senderId ≠ "u" → "u" ∉ m.readBy →
            ((none : Option (List MessageId)) = none ∨ (none : Option (List MessageId)) = some [] ∨
              (∃ ids, (none : Option (List MessageId)) = some ids ∧ m.id ∈ ids)) →
            "u" ∈ m2.readBy ∧ m2.status = .read)))
      stC8.messages (readMessage stC8 ctxU "c1" none).1.messages
  ∧ (readMessage stC8 ctxU "c1" none).2
      = [⟨.messages_read "c1" "u" "alice",
          (membersOf stC8 "c1").filter (fun x => x ≠ "s1")⟩]
  ∧ (∀ dv ∈ (readMessage stC8 ctxU "c1" none).2, "s1" ∉ dv.recipients) :=
  C8_read_marking stC8 ctxU "c1" none chatC1 (by rfl)

end Chert
